import Mathlib

/-!
Verification of the YarnSpinner-Rust sources against their natural-language
specification. The definitions below are shallow embeddings of the Rust
functions named in the comments; the theorems at the end of the file settle
the individual claims of the specification.
-/

set_option linter.unusedVariables false

/-! ## The `f32` value model

`crates/core/src/types/number.rs` declares `type RustType = f32;` and
registers the Number type's operator methods over that carrier. We model an
`f32` value as an IEEE-754 binary32 datum: a NaN, a signed infinity, or a
signed finite value `(-1)^sign * mantissa * 2^exponent`. The format
parameters below are those of binary32 (1 sign bit, 8 exponent bits, 23
stored mantissa bits). -/

/-- Number of stored mantissa (fraction) bits of the `f32` format. -/
def f32MantissaBits : Nat := 23

/-- Number of exponent bits of the `f32` format. -/
def f32ExponentBits : Nat := 8

/-- Total bit width of the `f32` format: one sign bit plus exponent and
mantissa bits, i.e. 32. -/
def f32Width : Nat := 1 + f32ExponentBits + f32MantissaBits

/-- Largest unbiased exponent of a normal binary32 value: `2^(8-1) - 1 = 127`. -/
def f32EMax : Int := 2 ^ (f32ExponentBits - 1) - 1

/-- Smallest unbiased exponent of a normal binary32 value: `-126`. -/
def f32EMinNormal : Int := 1 - f32EMax

/-- Scale of the least significant subnormal bit: `-149`. -/
def f32EMinSub : Int := f32EMinNormal - f32MantissaBits

/-- An `f32` value: NaN (all NaN payloads identified, as no modelled
operation distinguishes them), a signed infinity, or a signed finite value
`(-1)^sign * mantissa * 2^exponent`. -/
inductive F32 where
  | nan : F32
  | inf (sign : Bool) : F32
  | finite (sign : Bool) (mantissa : Nat) (exponent : Int) : F32
deriving DecidableEq, Repr

/-- The `f32` literal `0.0` (positive zero). -/
def F32.zero : F32 := .finite false 0 f32EMinSub

/-- Whether an `f32` value is a (positive or negative) zero. -/
def F32.isZero : F32 → Bool
  | .finite _ m _ => m == 0
  | _ => false

/-- Magnitude comparison `m * 2^e < n * 2^f` on nonnegative magnitudes,
computed exactly over `Nat` by aligning the exponents. -/
def magLT (m : Nat) (e : Int) (n : Nat) (f : Int) : Bool :=
  if f ≤ e then decide (m * 2 ^ (e - f).toNat < n)
  else decide (m < n * 2 ^ (f - e).toNat)

/-- Magnitude equality `m * 2^e = n * 2^f`, computed exactly over `Nat`. -/
def magEQ (m : Nat) (e : Int) (n : Nat) (f : Int) : Bool :=
  if f ≤ e then decide (m * 2 ^ (e - f).toNat = n)
  else decide (m = n * 2 ^ (f - e).toNat)

/-- IEEE-754 `<` on `f32` (Rust `PartialOrd::lt`): NaN compares false with
everything, `-0.0 < 0.0` is false, infinities order around all finite
values. -/
def f32_lt : F32 → F32 → Bool
  | .nan, _ => false
  | _, .nan => false
  | .inf s, .inf t => s && !t
  | .inf s, .finite _ _ _ => s
  | .finite _ _ _, .inf t => !t
  | .finite s m e, .finite t n f =>
    if m = 0 && n = 0 then false
    else if m = 0 then !t
    else if n = 0 then s
    else if s && !t then true
    else if !s && t then false
    else if !s && !t then magLT m e n f
    else magLT n f m e

/-- IEEE-754 `==` on `f32` (the registry's `eq_by_value`): NaN is not equal
to anything (itself included) and `-0.0 == 0.0`. -/
def f32_eq : F32 → F32 → Bool
  | .nan, _ => false
  | _, .nan => false
  | .inf s, .inf t => s == t
  | .inf _, .finite _ _ _ => false
  | .finite _ _ _, .inf _ => false
  | .finite s m e, .finite t n f =>
    if m = 0 && n = 0 then true
    else if m = 0 || n = 0 then false
    else s == t && magEQ m e n f

/-- IEEE-754 `!=` on `f32` (the registry's `ne_by_value`). -/
def f32_ne (a b : F32) : Bool := !f32_eq a b

/-- IEEE-754 `>` on `f32`. -/
def f32_gt (a b : F32) : Bool := f32_lt b a

/-- IEEE-754 `>=` on `f32`. -/
def f32_ge (a b : F32) : Bool := f32_gt a b || f32_eq a b

/-- IEEE-754 `<=` on `f32`. -/
def f32_le (a b : F32) : Bool := f32_lt a b || f32_eq a b

/-- Floor of the base-2 logarithm of the positive rational `num / den`,
computed exactly over `Nat` (`Nat.log` and `Nat.clog` are the floor and
ceiling integer logarithms). -/
def floorLogTwo (num den : Nat) : Int :=
  if den ≤ num then (Nat.log 2 (num / den) : Int)
  else -(Nat.clog 2 ((den + num - 1) / num) : Int)

/-- Nearest integer to `N / D` with ties broken to the even integer
(IEEE-754 roundTiesToEven), for `D > 0`. -/
def roundHalfToEven (N D : Nat) : Nat :=
  let q := N / D
  let r := N % D
  if 2 * r < D then q
  else if D < 2 * r then q + 1
  else if q % 2 = 0 then q else q + 1

/-- Correctly rounded conversion of the exact nonnegative rational
`num / den` (with the given result sign) into the binary32 grid, using
roundTiesToEven: the exponent regime is chosen from the floor log, clamped
into the normal/subnormal range, the significand is rounded on that grid,
and overflow past the largest binade produces an infinity. -/
def roundToF32 (sign : Bool) (num den : Nat) : F32 :=
  if num = 0 then .finite sign 0 f32EMinSub
  else
    let efloor := floorLogTwo num den
    let e2 := min f32EMax (max f32EMinNormal efloor)
    let shift := e2 - (f32MantissaBits : Int)
    let N := num * 2 ^ (-shift).toNat
    let D := den * 2 ^ shift.toNat
    let mant := roundHalfToEven N D
    if 2 ^ (f32MantissaBits + 1) ≤ mant then
      if e2 < f32EMax then .finite sign (2 ^ f32MantissaBits) (shift + 1)
      else .inf sign
    else .finite sign mant shift

/-- Rust `<f32 as Add>::add`, IEEE-754 addition with roundTiesToEven. The
sum of two finite values is computed exactly over `Int` at the smaller
exponent and then rounded; an exact zero sum is `-0.0` only when both
operands are negative (zeros). Rust float addition never panics, so the
embedding is a total function. -/
def f32_add : F32 → F32 → F32
  | .nan, _ => .nan
  | _, .nan => .nan
  | .inf s, .inf t => if s = t then .inf s else .nan
  | .inf s, .finite _ _ _ => .inf s
  | .finite _ _ _, .inf t => .inf t
  | .finite s m e, .finite t n f =>
    let g := min e f
    let ia : Int := (if s then -(m : Int) else (m : Int)) * 2 ^ (e - g).toNat
    let ib : Int := (if t then -(n : Int) else (n : Int)) * 2 ^ (f - g).toNat
    let sum := ia + ib
    if sum = 0 then .finite (s && t) 0 f32EMinSub
    else if 0 ≤ g then roundToF32 (decide (sum < 0)) (sum.natAbs * 2 ^ g.toNat) 1
    else roundToF32 (decide (sum < 0)) sum.natAbs (2 ^ (-g).toNat)

/-- Rust `<f32 as Neg>::neg`: flips the sign bit, NaN stays NaN. -/
def f32_neg : F32 → F32
  | .nan => .nan
  | .inf s => .inf (!s)
  | .finite s m e => .finite (!s) m e

/-- Rust `<f32 as Sub>::sub`, IEEE-754 subtraction: `a - b = a + (-b)`. -/
def f32_sub (a b : F32) : F32 := f32_add a (f32_neg b)

/-- Rust `<f32 as Mul>::mul`, IEEE-754 multiplication with
roundTiesToEven; `0 * inf` is NaN. -/
def f32_mul : F32 → F32 → F32
  | .nan, _ => .nan
  | _, .nan => .nan
  | .inf s, .inf t => .inf (Bool.xor s t)
  | .inf s, .finite t n _ => if n = 0 then .nan else .inf (Bool.xor s t)
  | .finite s m _, .inf t => if m = 0 then .nan else .inf (Bool.xor s t)
  | .finite s m e, .finite t n f =>
    if m = 0 || n = 0 then .finite (Bool.xor s t) 0 f32EMinSub
    else
      let g := e + f
      if 0 ≤ g then roundToF32 (Bool.xor s t) (m * n * 2 ^ g.toNat) 1
      else roundToF32 (Bool.xor s t) (m * n) (2 ^ (-g).toNat)

/-- Rust `<f32 as Div>::div`, IEEE-754 division with roundTiesToEven.
Rust float division never panics: every case, division by zero included,
produces a value, so the embedding is a total function. `x / 0` is NaN for
`x` zero or NaN and a signed infinity otherwise; the finite/finite case is
the exact quotient correctly rounded. -/
def f32_div : F32 → F32 → F32
  | .nan, _ => .nan
  | _, .nan => .nan
  | .inf _, .inf _ => .nan
  | .inf s, .finite t _ _ => .inf (Bool.xor s t)
  | .finite s _ _, .inf t => .finite (Bool.xor s t) 0 f32EMinSub
  | .finite s m e, .finite t n f =>
    if n = 0 then (if m = 0 then .nan else .inf (Bool.xor s t))
    else if m = 0 then .finite (Bool.xor s t) 0 f32EMinSub
    else if f ≤ e then roundToF32 (Bool.xor s t) (m * 2 ^ (e - f).toNat) n
    else roundToF32 (Bool.xor s t) m (n * 2 ^ (f - e).toNat)

/-- Rust `<f32 as Rem>::rem` (C `fmod`): `x % y = x - trunc(x/y) * y`,
computed exactly (the remainder of two finite floats is always exactly
representable); the result has the sign of `x`, `x % 0` and `inf % y` are
NaN, and `x % inf = x` for finite `x`. -/
def f32_rem : F32 → F32 → F32
  | .nan, _ => .nan
  | _, .nan => .nan
  | .inf _, _ => .nan
  | .finite s m e, .inf _ => .finite s m e
  | .finite s m e, .finite _ n f =>
    if n = 0 then .nan
    else
      let g := min e f
      let m2 := m * 2 ^ (e - g).toNat
      let n2 := n * 2 ^ (f - g).toNat
      .finite s (m2 % n2) g

/-! ## The Number type's method registry

`number_type_properties` in `crates/core/src/types/number.rs` registers the
operator methods of the Yarn `Number` type; every method is a Rust function
over `RustType = f32`. Only the `Operator` variants that `number.rs` names
are modelled here. -/

/-- Operator names used by the Number type registry in `number.rs`. -/
inductive Operator where
  | EqualTo
  | NotEqualTo
  | Add
  | Subtract
  | Multiply
  | Divide
  | Modulo
  | UnarySubtract
  | GreaterThan
  | GreaterThanOrEqualTo
  | LessThan
  | LessThanOrEqualTo
deriving DecidableEq, Repr

/-- A method registered for the Number type: a binary arithmetic function,
a binary comparison, or a unary function, in every case over the `f32`
carrier. -/
inductive NumberMethod where
  | binary (f : F32 → F32 → F32) : NumberMethod
  | comparison (f : F32 → F32 → Bool) : NumberMethod
  | unary (f : F32 → F32) : NumberMethod

/-- The method registry built by `number_type_properties` in `number.rs`:
`TypeProperties::from_name("Number").with_methods(...)` maps each operator
to its `f32` implementation. -/
def number_type_properties : List (Operator × NumberMethod) :=
  [ (Operator.EqualTo, .comparison f32_eq),
    (Operator.NotEqualTo, .comparison f32_ne),
    (Operator.Add, .binary f32_add),
    (Operator.Subtract, .binary f32_sub),
    (Operator.Multiply, .binary f32_mul),
    (Operator.Divide, .binary f32_div),
    (Operator.Modulo, .binary f32_rem),
    (Operator.UnarySubtract, .unary f32_neg),
    (Operator.GreaterThan, .comparison f32_gt),
    (Operator.GreaterThanOrEqualTo, .comparison f32_ge),
    (Operator.LessThan, .comparison f32_lt),
    (Operator.LessThanOrEqualTo, .comparison f32_le) ]

/-! ## Runtime values and the visited built-ins

`crates/runtime/src/dialogue.rs` pattern-matches `YarnValue::Number(count)`
where `count : f32`; the other `YarnValue` variants carry a `String` and a
`bool`. A `VariableStorage` is read through `get : &str -> Option<YarnValue>`,
so a storage is embedded as a lookup function. -/

/-- A runtime Yarn value: the tagged union over number, string and bool.
The `Number` variant carries an `f32`. -/
inductive YarnValue where
  | Number (value : F32) : YarnValue
  | Str (value : String) : YarnValue
  | Boolean (value : Bool) : YarnValue
deriving DecidableEq, Repr

/-- The read surface of a `VariableStorage`: its `get` method. -/
def VariableStorageFn : Type := String → Option YarnValue

/-- Rust `is_node_visited` (dialogue.rs): true exactly when the storage
holds a `YarnValue::Number(count)` under the node's name with
`count > 0.0`. -/
def is_node_visited (variable_storage : VariableStorageFn) (node_name : String) : Bool :=
  match variable_storage node_name with
  | some (YarnValue.Number count) => f32_gt count F32.zero
  | _ => false

/-- Rust `get_node_visit_count` (dialogue.rs): the stored
`YarnValue::Number` under the node's name, or `0.0` when the storage holds
no number there. -/
def get_node_visit_count (variable_storage : VariableStorageFn) (node_name : String) : F32 :=
  match variable_storage node_name with
  | some (YarnValue.Number count) => count
  | _ => F32.zero

/-! ## The indent-aware lexer

`crates/compiler/src/parser/indent_aware_lexer.rs` wraps the generated
lexer. Its per-token dispatch `check_next_token` is embedded as a state
transition; the bodies of `handle_newline_token` and `handle_eof_token` in
the source are `todo!()`, i.e. they panic unconditionally, which the
embedding renders as `none`. -/

/-- Token kinds distinguished by `check_next_token`; every other token type
falls into `OTHER` (carrying the raw ANTLR token-type code). -/
inductive YarnTokenType where
  | NEWLINE
  | SHORTCUT_ARROW
  | BODY_END
  | EOF
  | OTHER (code : Nat)
deriving DecidableEq, Repr

/-- A lexed token as far as the indent-aware wrapper inspects it. -/
structure LexToken where
  token_type : YarnTokenType
  text : String
deriving DecidableEq, Repr

/-- The mutable state of `IndentAwareYarnSpinnerLexer`. -/
structure IndentAwareLexerState where
  hit_eof : Bool
  last_token : Option LexToken
  pending_tokens : List LexToken
  line_contains_shortcut : Bool
  last_indent : Int
  unbalanced_indents : List Int
  last_seen_option_content : Option Int
deriving DecidableEq, Repr

/-- The state built by `IndentAwareYarnSpinnerLexer::new`. -/
def initialLexerState : IndentAwareLexerState :=
  { hit_eof := false
    last_token := none
    pending_tokens := []
    line_contains_shortcut := false
    last_indent := 0
    unbalanced_indents := []
    last_seen_option_content := none }

/-- Rust `handle_newline_token` (indent_aware_lexer.rs): its body is
`todo!()`, so it panics on every call; `none` models the panic. -/
def handle_newline_token (st : IndentAwareLexerState) (current : LexToken) :
    Option IndentAwareLexerState :=
  none

/-- Rust `handle_eof_token` (indent_aware_lexer.rs): its body is
`todo!()`, so it panics on every call; `none` models the panic. -/
def handle_eof_token (st : IndentAwareLexerState) (current : LexToken) :
    Option IndentAwareLexerState :=
  none

/-- Rust `check_next_token` (indent_aware_lexer.rs): dispatches on the
token type of the token read from the base lexer — NEWLINE and EOF go to
their (panicking) handlers, a SHORTCUT_ARROW is enqueued and sets the
shortcut flag, a BODY_END resets the whole indent state and is enqueued,
anything else is enqueued unchanged — and then records the token as
`last_token` (unreachable when a handler panicked). -/
def check_next_token (st : IndentAwareLexerState) (current : LexToken) :
    Option IndentAwareLexerState :=
  let dispatched : Option IndentAwareLexerState :=
    match current.token_type with
    | .NEWLINE => handle_newline_token st current
    | .EOF => handle_eof_token st current
    | .SHORTCUT_ARROW =>
      some { st with
        pending_tokens := st.pending_tokens ++ [current]
        line_contains_shortcut := true }
    | .BODY_END =>
      some { st with
        line_contains_shortcut := false
        last_indent := 0
        unbalanced_indents := []
        last_seen_option_content := none
        pending_tokens := st.pending_tokens ++ [current] }
    | .OTHER _ => some { st with pending_tokens := st.pending_tokens ++ [current] }
  dispatched.map fun st' => { st' with last_token := some current }

/-! ## Declaration source positions

`crates/compiler/src/output/declaration.rs` documents `Position` as a
zero-indexed `(line, character)` pair and computes declaration ranges in
`RangeSource::range` from the ANTLR context tokens. ANTLR reports
`get_line()` one-indexed and `get_column()` zero-indexed. -/

/-- A source position as stored in a `Declaration` range; the Rust doc
comments state both fields are zero-indexed. -/
structure Position where
  line : Nat
  character : Nat
deriving DecidableEq, Repr

/-- The position data of an ANTLR token: `get_line()` is the one-indexed
source line and `get_column()` the zero-indexed character column, per the
ANTLR convention the `antlr_rust` dependency follows. -/
structure AntlrTokenInfo where
  line : Nat
  column : Nat
deriving DecidableEq, Repr

/-- The parts of a parse-tree context that `RangeSource::range` reads:
`self.start()`, `self.stop()`, and the length of
`self.get_text_with_whitespace(token_stream)`. -/
structure ParserRuleSpan where
  start_token : AntlrTokenInfo
  stop_token : AntlrTokenInfo
  text_with_whitespace_len : Nat
deriving DecidableEq, Repr

/-- Rust `RangeSource::range` (declaration.rs): the start position is
`(start.get_line(), start.get_column() + 1)` and the stop position is
`(stop.get_line(), start.get_column() + text.len())`, returned as an
inclusive range. -/
def ParserRuleSpan.range (ctx : ParserRuleSpan) : Position × Position :=
  ({ line := ctx.start_token.line, character := ctx.start_token.column + 1 },
   { line := ctx.stop_token.line,
     character := ctx.start_token.column + ctx.text_with_whitespace_len })

/-- Formalisation of the claim's words (not of the source): the
zero-indexed position of a symbol whose ANTLR token sits at one-indexed
line `get_line()` and zero-indexed column `get_column()`. -/
def zeroIndexedPositionOfToken (t : AntlrTokenInfo) : Position :=
  { line := t.line - 1, character := t.column }

/-! ## Dialogue and virtual-machine surface

`crates/runtime/src/dialogue.rs` delegates to a `VirtualMachine` whose
source file is not among the provided sources; the VM state is embedded
with the fields the claims touch (`program`, `stack`, current node,
instruction pointer). A `Program` maps node names to nodes. -/

/-- A compiled Yarn node, reduced to the fields the modelled methods read
(its name and its header tags). -/
structure YarnNode where
  name : String
  tags : List String
deriving DecidableEq, Repr

/-- A compiled program: the name-to-node map (`program.nodes`), embedded
as an association list. -/
structure YarnProgram where
  nodes : List (String × YarnNode)
deriving DecidableEq, Repr

/-- The virtual-machine state fields touched by the modelled claims. -/
structure VirtualMachineState where
  program : Option YarnProgram
  stack : List YarnValue
  current_node_name : Option String
  program_counter : Nat
deriving DecidableEq, Repr

/-- The `Dialogue` struct: a virtual machine plus a language code. -/
structure DialogueState where
  vm : VirtualMachineState
  language_code : Option String
deriving DecidableEq, Repr

/-- Modelled from the spec: `VirtualMachine::set_node` lives in
`virtual_machine.rs`, which is not among the provided sources (only its
caller `Dialogue::set_node` is). Per the spec it "resets the stack, seeks
to instruction 0 of `name`, and primes the VM; panics if `name` is
unknown"; `none` models the panic. -/
def VirtualMachine.set_node (vm : VirtualMachineState) (node_name : String) :
    Option VirtualMachineState :=
  match vm.program with
  | none => none
  | some program =>
    if (program.nodes.lookup node_name).isSome then
      some { vm with
        stack := []
        current_node_name := some node_name
        program_counter := 0 }
    else none

/-- Rust `Dialogue::set_node` (dialogue.rs): forwards to
`VirtualMachine::set_node`; a panic in the VM propagates. -/
def Dialogue.set_node (d : DialogueState) (node_name : String) : Option DialogueState :=
  (VirtualMachine.set_node d.vm node_name).map fun vm' => { d with vm := vm' }

/-- Whether a node of the given name has been loaded: a program is present
and its node map binds the name. -/
def node_is_loaded (d : DialogueState) (node_name : String) : Bool :=
  match d.vm.program with
  | some program => (program.nodes.lookup node_name).isSome
  | none => false

/-- Rust `Dialogue::get_node_logging_errors` (dialogue.rs): `None` (after
logging an error) when no program is loaded, when the loaded program has no
nodes, or when no node carries the requested name; otherwise a clone of
the node. -/
def get_node_logging_errors (d : DialogueState) (node_name : String) : Option YarnNode :=
  match d.vm.program with
  | some program =>
    if program.nodes.isEmpty then none
    else
      match program.nodes.lookup node_name with
      | some node => some node
      | none => none
  | none => none

/-- Rust `Dialogue::get_string_id_for_node` (dialogue.rs): maps the node
lookup to `format!("line:{node_name}")`, never touching a string table. -/
def get_string_id_for_node (d : DialogueState) (node_name : String) : Option String :=
  (get_node_logging_errors d node_name).map fun _ => "line:" ++ node_name

/-- Rust `Dialogue::parse_markup` (dialogue.rs): returns
`line.to_owned()`, a pass-through of its input. -/
def parse_markup (d : DialogueState) (line : String) : String :=
  line

/-! ## Substitution expansion

`Dialogue::expand_substitutions` (dialogue.rs) folds over the enumerated
substitution list, replacing each marker `format!("{{{i}}}")` — the three-or-more
character string `\x7b i \x7d` — via Rust's `str::replace`, which rewrites
every non-overlapping occurrence, leftmost first. Strings are handled
through their character lists. -/

/-- Rust `str::replace` on character lists, for a nonempty pattern, with an
explicit fuel bound on the number of scanned positions: scan left to
right, rewrite every non-overlapping occurrence of `pat` by `repl`,
leftmost first. Each step consumes at least one character, so
`fuel = s.length` fully processes `s`. -/
def replaceAux (pat repl : List Char) : Nat → List Char → List Char
  | _, [] => []
  | 0, c :: rest => c :: rest
  | fuel + 1, c :: rest =>
    if pat.isPrefixOf (c :: rest) then
      repl ++ replaceAux pat repl fuel (List.drop pat.length (c :: rest))
    else
      c :: replaceAux pat repl fuel rest

/-- Rust `str::replace`: every non-overlapping occurrence of `pat` in `s`
is rewritten to `repl`, leftmost first; the empty pattern matches at every
character boundary (`"abc".replace("", "-") == "-a-b-c-"`). -/
def rustStrReplace (s pat repl : String) : String :=
  if pat.toList.isEmpty then
    (repl.toList ++ s.toList.foldr (fun c acc => c :: (repl.toList ++ acc)) []).asString
  else
    (replaceAux pat.toList repl.toList s.toList.length s.toList).asString

/-- The marker string `format!("{{{i}}}")` of substitution index `i`, i.e.
`\x7b` ++ digits of `i` ++ `\x7d`. -/
def substitutionMarker (i : Nat) : String :=
  "\x7b" ++ toString i ++ "\x7d"

/-- Character list of the marker of substitution index `i`. -/
def markerChars (i : Nat) : List Char :=
  (substitutionMarker i).toList

/-- Whether the pattern `pat` occurs as a contiguous substring of `s`. -/
def containsPat (pat : List Char) : List Char → Bool
  | [] => pat.isEmpty
  | c :: rest => pat.isPrefixOf (c :: rest) || containsPat pat rest

/-- Rust `Dialogue::expand_substitutions` (dialogue.rs): folds the
enumerated substitution list over the text, replacing the marker of each
index in turn with `str::replace`. -/
def expand_substitutions (text : String) (substitutions : List String) : String :=
  substitutions.enum.foldl
    (fun t p => rustStrReplace t (substitutionMarker p.1) p.2) text

/-- First applicable marker at the head of `s`: scans the substitution
list, returning the substitution and the marker length of the first index
`i` whose marker `\x7b i \x7d` is a prefix of `s`. -/
def pickMarker : List String → Nat → List Char → Option (String × Nat)
  | [], _, _ => none
  | sub :: subs, i, s =>
    if (markerChars i).isPrefixOf s then some (sub, (markerChars i).length)
    else pickMarker subs (i + 1) s

/-- Helper of `expandSimultaneously`: a single left-to-right scan of the
text replacing each marker occurrence by its substitution; unmatched
characters are copied. Fuel bounds the scanned positions. -/
def simulExpandAux (subs : List String) : Nat → List Char → List Char
  | _, [] => []
  | 0, c :: rest => c :: rest
  | fuel + 1, c :: rest =>
    match pickMarker subs 0 (c :: rest) with
    | some (sub, len) => sub.toList ++ simulExpandAux subs fuel (List.drop len (c :: rest))
    | none => c :: simulExpandAux subs fuel rest

/-- Formalisation of the claim's words (not of the source): for each index
`i` below the list's length, every occurrence of the marker `\x7b i \x7d`
*in the input text* is replaced by the `i`-th substitution, in one
simultaneous pass; all other text is left unchanged. -/
def expandSimultaneously (text : String) (subs : List String) : String :=
  (simulExpandAux subs text.toList.length text.toList).asString

/-! ## Concrete fixtures used by witnesses -/

/-- A variable storage holding visit count 1 for the node `Intro`. -/
def exampleStorage : VariableStorageFn :=
  fun k => if k = "Intro" then some (YarnValue.Number (F32.finite false 1 0)) else none

/-- A loaded node named `Start`. -/
def exampleNode : YarnNode := { name := "Start", tags := ["rawText"] }

/-- A program holding the single node `Start`. -/
def exampleProgram : YarnProgram := { nodes := [("Start", exampleNode)] }

/-- A dialogue with `exampleProgram` loaded and some VM state to reset. -/
def exampleDialogue : DialogueState :=
  { vm := { program := some exampleProgram
            stack := [YarnValue.Boolean true]
            current_node_name := none
            program_counter := 5 }
    language_code := none }

/-- A dialogue with no program loaded. -/
def emptyDialogue : DialogueState :=
  { vm := { program := none, stack := [], current_node_name := none, program_counter := 0 }
    language_code := none }

/-- A lexer state mid-way through an indented option block. -/
def exampleMidLexerState : IndentAwareLexerState :=
  { hit_eof := false
    last_token := none
    pending_tokens := []
    line_contains_shortcut := true
    last_indent := 4
    unbalanced_indents := [4]
    last_seen_option_content := some 4 }

/-- A `===` token. -/
def bodyEndToken : LexToken := { token_type := YarnTokenType.BODY_END, text := "===" }

/-- A parse-tree context whose symbol starts at the first source line
(ANTLR `get_line() = 1`), first column (`get_column() = 0`), with symbol
text of length 2 (e.g. the `$x` of `<<declare $x = 1>>` placed at the
origin). -/
def originSpan : ParserRuleSpan :=
  { start_token := { line := 1, column := 0 }
    stop_token := { line := 1, column := 0 }
    text_with_whitespace_len := 2 }

/-! ## Helper lemmas -/

/-- The empty pattern occurs in every string. -/
theorem containsPat_nil : ∀ (l : List Char), containsPat [] l = true := by
  intro l
  cases l with
  | nil => rfl
  | cons c rest => simp [containsPat, List.isPrefixOf]

/-- `str::replace` leaves a string without any occurrence of the (then
necessarily nonempty) pattern unchanged, whatever the fuel. -/
theorem replaceAux_id_of_not_contains (pat repl : List Char) :
    ∀ (fuel : Nat) (s : List Char), containsPat pat s = false →
      replaceAux pat repl fuel s = s := by
  intro fuel
  induction fuel with
  | zero => intro s h; cases s <;> rfl
  | succ k ih =>
    intro s h
    cases s with
    | nil => rfl
    | cons c rest =>
      have h1 : pat.isPrefixOf (c :: rest) = false := by
        cases hpre : pat.isPrefixOf (c :: rest)
        · rfl
        · exfalso
          simp [containsPat, hpre] at h
      have h2 : containsPat pat rest = false := by
        simpa [containsPat, h1] using h
      simp [replaceAux, h1, ih rest h2]

/-- Rebuilding a string from its character list is the identity. -/
theorem asString_toList (s : String) : s.toList.asString = s := rfl

/-- String-level version: `str::replace` is the identity when the pattern
does not occur in the string. -/
theorem rustStrReplace_id_of_not_contains (s pat repl : String)
    (h : containsPat pat.toList s.toList = false) :
    rustStrReplace s pat repl = s := by
  unfold rustStrReplace
  cases hp : pat.toList with
  | nil =>
    exfalso
    rw [hp, containsPat_nil] at h
    cases h
  | cons c cs =>
    rw [hp] at h
    simp only [List.isEmpty_cons, Bool.false_eq_true, if_false]
    rw [replaceAux_id_of_not_contains _ _ _ _ h]
    exact asString_toList s

/-- An element of `enumFrom k l` has first component below `k + l.length`. -/
theorem fst_lt_of_mem_enumFrom {α : Type} :
    ∀ (l : List α) (k : Nat) (p : Nat × α), p ∈ List.enumFrom k l → p.1 < k + l.length := by
  intro l
  induction l with
  | nil => intro k p hp; simp [List.enumFrom] at hp
  | cons a t ih =>
    intro k p hp
    rw [List.enumFrom] at hp
    rcases List.mem_cons.mp hp with h | h
    · subst h; simp
    · have := ih (k + 1) p h
      simp only [List.length_cons]
      omega

/-- Folding marker replacements over a text none of whose markers occur in
it leaves the text unchanged. -/
theorem foldl_replace_id :
    ∀ (l : List (Nat × String)) (t : String),
      (∀ p ∈ l, containsPat (markerChars p.1) t.toList = false) →
      l.foldl (fun t p => rustStrReplace t (substitutionMarker p.1) p.2) t = t := by
  intro l
  induction l with
  | nil => intro t h; rfl
  | cons q r ih =>
    intro t h
    rw [List.foldl_cons]
    have h1 := h q (List.mem_cons_self q r)
    rw [rustStrReplace_id_of_not_contains t (substitutionMarker q.1) q.2
      (by simpa [markerChars] using h1)]
    exact ih t fun p hp => h p (List.mem_cons_of_mem q hp)

/-! ## Claim theorems -/

/-- C1: for every variable storage and node name, `visited` (backed by
`is_node_visited`) returns true if and only if the storage holds a Number
value strictly greater than 0 under that name, and `visited_count` (backed
by `get_node_visit_count`) returns that Number, or the Number zero value
`0.0` when the storage holds no Number under the name. -/
theorem visited_builtins_follow_storage (storage : VariableStorageFn) (n : String) :
    (is_node_visited storage n = true ↔
      ∃ c, storage n = some (YarnValue.Number c) ∧ f32_gt c F32.zero = true) ∧
    (∀ c, storage n = some (YarnValue.Number c) → get_node_visit_count storage n = c) ∧
    ((∀ c, storage n ≠ some (YarnValue.Number c)) →
      get_node_visit_count storage n = F32.zero) := by
  refine ⟨⟨?_, ?_⟩, ?_, ?_⟩
  · intro h
    unfold is_node_visited at h
    cases hs : storage n with
    | none => rw [hs] at h; cases h
    | some v =>
      cases v with
      | Number c => rw [hs] at h; exact ⟨c, rfl, h⟩
      | Str s => rw [hs] at h; cases h
      | Boolean b => rw [hs] at h; cases h
  · rintro ⟨c, hc, hgt⟩
    unfold is_node_visited
    rw [hc]
    exact hgt
  · intro c hc
    unfold get_node_visit_count
    rw [hc]
  · intro hnone
    unfold get_node_visit_count
    cases hs : storage n with
    | none => rfl
    | some v =>
      cases v with
      | Number c => exact absurd hs (hnone c)
      | Str s => rfl
      | Boolean b => rfl

/-- C1 witness: on a storage holding Number 1 under `Intro`, `visited`
returns true and `visited_count` returns that Number; under the absent
name `Other` the count is the zero value. -/
theorem visited_builtins_follow_storage_witness :
    is_node_visited exampleStorage "Intro" = true ∧
    get_node_visit_count exampleStorage "Intro" = F32.finite false 1 0 ∧
    get_node_visit_count exampleStorage "Other" = F32.zero := by
  refine ⟨?_, ?_, ?_⟩
  · exact (visited_builtins_follow_storage exampleStorage "Intro").1.mpr
      ⟨F32.finite false 1 0, by decide, by decide⟩
  · exact (visited_builtins_follow_storage exampleStorage "Intro").2.1
      (F32.finite false 1 0) (by decide)
  · apply (visited_builtins_follow_storage exampleStorage "Other").2.2
    intro c h
    have hnone : exampleStorage "Other" = none := by decide
    rw [hnone] at h
    cases h

/-- C2: `Dialogue::set_node` (through the spec-modelled
`VirtualMachine::set_node`) panics if and only if no node of the requested
name has been loaded; when the node exists it succeeds, resetting the
stack, seeking to instruction 0, and making the node current. -/
theorem set_node_panics_iff_unknown (d : DialogueState) (n : String) :
    (Dialogue.set_node d n = none ↔ node_is_loaded d n = false) ∧
    (∀ d', Dialogue.set_node d n = some d' →
      d'.vm.stack = [] ∧ d'.vm.program_counter = 0 ∧
      d'.vm.current_node_name = some n) := by
  unfold Dialogue.set_node VirtualMachine.set_node node_is_loaded
  cases hp : d.vm.program with
  | none =>
    refine ⟨by simp, ?_⟩
    intro d' hd'
    simp at hd'
  | some program =>
    by_cases hl : (program.nodes.lookup n).isSome
    · refine ⟨by simp [hl], ?_⟩
      intro d' hd'
      simp [hl] at hd'
      subst hd'
      exact ⟨rfl, rfl, rfl⟩
    · refine ⟨by simp [hl], ?_⟩
      intro d' hd'
      simp [hl] at hd'

/-- C2 witness: with the single-node program loaded, `set_node "Start"`
does not panic and primes the VM, while `set_node "Missing"` panics, as
does any `set_node` on a dialogue with no program. -/
theorem set_node_panics_iff_unknown_witness :
    Dialogue.set_node exampleDialogue "Missing" = none ∧
    Dialogue.set_node emptyDialogue "Start" = none ∧
    ∃ d', Dialogue.set_node exampleDialogue "Start" = some d' ∧
      d'.vm.stack = [] ∧ d'.vm.program_counter = 0 ∧
      d'.vm.current_node_name = some "Start" := by
  refine ⟨?_, ?_, ?_⟩
  · exact (set_node_panics_iff_unknown exampleDialogue "Missing").1.mpr (by decide)
  · exact (set_node_panics_iff_unknown emptyDialogue "Start").1.mpr (by decide)
  · cases hd : Dialogue.set_node exampleDialogue "Start" with
    | none =>
      exfalso
      have := (set_node_panics_iff_unknown exampleDialogue "Start").1.mp hd
      exact absurd this (by decide)
    | some d' =>
      exact ⟨d', rfl, (set_node_panics_iff_unknown exampleDialogue "Start").2 d' hd⟩

/-- C3 counterexample: the claim says the Number variant and its operator
methods work on a 64-bit float, but the carrier `RustType = f32` of
`number_type_properties` (and of `YarnValue.Number`) is the 32-bit format:
its width is 32, not 64. -/
theorem number_carrier_not_64_bit : f32Width = 32 ∧ ¬ f32Width = 64 := by
  decide

/-- C3 (amended): every runtime Value of the Number variant is a 32-bit
IEEE-754 float (`f32`), and the Number type's registry maps exactly the
twelve operators of `number.rs` to methods over that 32-bit carrier (each
registered function is over `F32` by construction). -/
theorem number_methods_are_32_bit_floats :
    f32Width = 32 ∧
    number_type_properties.map Prod.fst =
      [Operator.EqualTo, Operator.NotEqualTo, Operator.Add, Operator.Subtract,
       Operator.Multiply, Operator.Divide, Operator.Modulo, Operator.UnarySubtract,
       Operator.GreaterThan, Operator.GreaterThanOrEqualTo, Operator.LessThan,
       Operator.LessThanOrEqualTo] := by
  exact ⟨by decide, rfl⟩

/-- C4: dividing any two Number values is total — the embedding of
`<f32 as Div>::div` returns a value for every input, mirroring that Rust
float division never panics — and whenever the divisor is a zero, the
result is the IEEE-754 special value: positive or negative infinity, or
NaN. -/
theorem divide_by_zero_ieee (a b : F32) (h : b.isZero = true) :
    f32_div a b = F32.nan ∨ f32_div a b = F32.inf false ∨
    f32_div a b = F32.inf true := by
  cases b with
  | nan => cases h
  | inf s => cases h
  | finite t n f =>
    have hn : n = 0 := by simpa [F32.isZero] using h
    subst hn
    cases a with
    | nan => left; rfl
    | inf s =>
      cases hx : Bool.xor s t
      · right; left; simp [f32_div, hx]
      · right; right; simp [f32_div, hx]
    | finite s m e =>
      by_cases hm : m = 0
      · subst hm; left; simp [f32_div]
      · cases hx : Bool.xor s t
        · right; left; simp [f32_div, hm, hx]
        · right; right; simp [f32_div, hm, hx]

/-- C4 witness: `0.0` is a zero and dividing `1.0` by it yields an
infinity or NaN (concretely, positive infinity). -/
theorem divide_by_zero_ieee_witness :
    F32.zero.isZero = true ∧
    (f32_div (F32.finite false 1 0) F32.zero = F32.nan ∨
     f32_div (F32.finite false 1 0) F32.zero = F32.inf false ∨
     f32_div (F32.finite false 1 0) F32.zero = F32.inf true) :=
  ⟨rfl, divide_by_zero_ieee (F32.finite false 1 0) F32.zero rfl⟩

/-- C5 (code evaluated at the failing input): the indent-aware lexer's
`handle_eof_token` and `handle_newline_token` are `todo!()`, so
`check_next_token` panics on the EOF token — before any unwinding DEDENT
could be emitted — and already on the first NEWLINE token of any input. -/
theorem lexer_newline_and_eof_handlers_panic :
    check_next_token initialLexerState { token_type := YarnTokenType.EOF, text := "<EOF>" } =
      none ∧
    check_next_token initialLexerState { token_type := YarnTokenType.NEWLINE, text := "\n" } =
      none ∧
    check_next_token exampleMidLexerState { token_type := YarnTokenType.EOF, text := "<EOF>" } =
      none :=
  ⟨rfl, rfl, rfl⟩

/-- C6: whenever `check_next_token` processes a BODY_END (`===`) token, it
unconditionally resets the indent state — unbalanced-indent stack cleared,
last indent 0, shortcut flag cleared (and the option-content mark
dropped) — and enqueues the BODY_END token to the pending queue. -/
theorem body_end_resets_indent_state (st : IndentAwareLexerState) (t : LexToken)
    (h : t.token_type = YarnTokenType.BODY_END) :
    check_next_token st t =
      some { st with
        line_contains_shortcut := false
        last_indent := 0
        unbalanced_indents := []
        last_seen_option_content := none
        pending_tokens := st.pending_tokens ++ [t]
        last_token := some t } := by
  unfold check_next_token handle_newline_token handle_eof_token
  rw [h]
  rfl

/-- C6 witness: a mid-block lexer state with a nonempty indent stack is
fully reset by a `===` token. -/
theorem body_end_resets_indent_state_witness :
    check_next_token exampleMidLexerState bodyEndToken =
      some { exampleMidLexerState with
        line_contains_shortcut := false
        last_indent := 0
        unbalanced_indents := []
        last_seen_option_content := none
        pending_tokens := exampleMidLexerState.pending_tokens ++ [bodyEndToken]
        last_token := some bodyEndToken } :=
  body_end_resets_indent_state exampleMidLexerState bodyEndToken rfl

/-- C7 (code evaluated at the failing input): for a declared symbol whose
token sits at the first source line and first column (ANTLR
`get_line() = 1`, `get_column() = 0`), `RangeSource::range` produces the
start position `(line 1, character 1)`, not the zero-indexed position
`(0, 0)` that the `Position` documentation and the claim require. -/
theorem declaration_range_one_indexed_at_origin :
    (ParserRuleSpan.range originSpan).1 = { line := 1, character := 1 } ∧
    zeroIndexedPositionOfToken originSpan.start_token = { line := 0, character := 0 } ∧
    (ParserRuleSpan.range originSpan).1 ≠ zeroIndexedPositionOfToken originSpan.start_token := by
  decide

/-- C8: `Dialogue::parse_markup` is the identity on strings: a no-op
pass-through for every dialogue state and every input line. -/
theorem parse_markup_pass_through (d : DialogueState) (line : String) :
    parse_markup d line = line :=
  rfl

/-- C9 counterexample: the claim reads `expand_substitutions` as replacing
each marker's occurrences in the input text (the simultaneous reading,
`expandSimultaneously`). On text `{{0}}` with substitutions `["1", "Y"]`
the sequential fold first rewrites `{{0}}` to `{1}` — creating the marker
`{1}` out of text braces — and then rewrites it to `"Y"`, whereas the
input text contains one occurrence of `{0}` and none of `{1}`, so the
claimed result is `{1}`. -/
theorem expand_substitutions_cascades :
    expand_substitutions "\x7b\x7b0\x7d\x7d" ["1", "Y"] = "Y" ∧
    expandSimultaneously "\x7b\x7b0\x7d\x7d" ["1", "Y"] = "\x7b1\x7d" ∧
    expand_substitutions "\x7b\x7b0\x7d\x7d" ["1", "Y"] ≠
      expandSimultaneously "\x7b\x7b0\x7d\x7d" ["1", "Y"] := by
  decide

/-- C9 (amended): `expand_substitutions` replaces markers sequentially in
increasing index order, each step replacing every occurrence of the marker
`\x7b i \x7d` in the result of the previous step (so occurrences formed by
earlier replacements are replaced as well); in particular a text in which
no marker with index below the list's length occurs — a text containing no
markers included — is returned unchanged. -/
theorem expand_substitutions_id_of_no_marker (text : String) (substitutions : List String)
    (h : ∀ i, i < substitutions.length → containsPat (markerChars i) text.toList = false) :
    expand_substitutions text substitutions = text := by
  unfold expand_substitutions
  apply foldl_replace_id
  intro p hp
  have hlt : p.1 < substitutions.length := by
    have := fst_lt_of_mem_enumFrom substitutions 0 p (by simpa [List.enum] using hp)
    simpa using this
  exact h p.1 hlt

/-- C9 witness: a marker-free text is returned unchanged by
`expand_substitutions` on a two-element substitution list. -/
theorem expand_substitutions_id_witness :
    expand_substitutions "hello world" ["X", "Y"] = "hello world" :=
  expand_substitutions_id_of_no_marker "hello world" ["X", "Y"] (by decide)

/-- Characterisation of `get_node_logging_errors`: it yields a node exactly
when a program is loaded, its node map is non-empty, and the map binds the
requested name. -/
theorem get_node_logging_errors_some_iff (d : DialogueState) (n : String) :
    (∃ node, get_node_logging_errors d n = some node) ↔
    (∃ p, d.vm.program = some p ∧ p.nodes ≠ [] ∧ (p.nodes.lookup n).isSome = true) := by
  cases hp : d.vm.program with
  | none =>
    have hred : get_node_logging_errors d n = none := by
      unfold get_node_logging_errors
      rw [hp]
    constructor
    · rintro ⟨node, hnode⟩
      rw [hred] at hnode
      cases hnode
    · rintro ⟨p, hp2, -, -⟩
      cases hp2
  | some program =>
    have hred : get_node_logging_errors d n =
        (if program.nodes.isEmpty = true then none
         else
           match List.lookup n program.nodes with
           | some x => some x
           | none => none) := by
      unfold get_node_logging_errors
      rw [hp]
    constructor
    · rintro ⟨node, hnode⟩
      rw [hred] at hnode
      refine ⟨program, rfl, ?_, ?_⟩
      · intro hnil
        rw [hnil] at hnode
        simp at hnode
      · cases hl : List.lookup n program.nodes with
        | none =>
          rw [hl] at hnode
          simp [ite_self] at hnode
        | some x => rfl
    · rintro ⟨p, hp2, hne, hsome⟩
      have hpp := Option.some.inj hp2
      subst hpp
      rw [hred]
      cases hl : List.lookup n program.nodes with
      | none =>
        rw [hl] at hsome
        cases hsome
      | some node =>
        refine ⟨node, ?_⟩
        have hemp : program.nodes.isEmpty = false := by
          cases hnn : program.nodes with
          | nil => exact absurd hnn hne
          | cons q r => rfl
        simp [hemp, hl]

/-- C10: `get_string_id_for_node` returns `some ("line:" ++ n)` exactly
when a program is loaded whose node map is non-empty and contains a node
named `n`; in every other case it returns `None` (never panicking, never
any other string), and its result is determined by the loaded program
alone — no string table is consulted. -/
theorem get_string_id_determined_by_nodes (d : DialogueState) (n : String) :
    (get_string_id_for_node d n = some ("line:" ++ n) ↔
      ∃ p, d.vm.program = some p ∧ p.nodes ≠ [] ∧ (p.nodes.lookup n).isSome = true) ∧
    (∀ s, get_string_id_for_node d n = some s → s = "line:" ++ n) ∧
    (∀ d', d.vm.program = d'.vm.program →
      get_string_id_for_node d n = get_string_id_for_node d' n) := by
  refine ⟨⟨?_, ?_⟩, ?_, ?_⟩
  · intro h
    unfold get_string_id_for_node at h
    rcases Option.map_eq_some'.mp h with ⟨node, hnode, -⟩
    exact (get_node_logging_errors_some_iff d n).mp ⟨node, hnode⟩
  · intro hr
    rcases (get_node_logging_errors_some_iff d n).mpr hr with ⟨node, hnode⟩
    unfold get_string_id_for_node
    rw [hnode]
    rfl
  · intro s hs
    unfold get_string_id_for_node at hs
    rcases Option.map_eq_some'.mp hs with ⟨node, -, heq⟩
    exact heq.symm
  · intro d' hpp
    unfold get_string_id_for_node get_node_logging_errors
    rw [hpp]

/-- C10 witness: with the single-node program loaded the method returns
`some "line:Start"` for `Start`, and `none` both for a missing node and on
a dialogue with no program. -/
theorem get_string_id_determined_by_nodes_witness :
    get_string_id_for_node exampleDialogue "Start" = some ("line:" ++ "Start") ∧
    get_string_id_for_node exampleDialogue "Missing" = none ∧
    get_string_id_for_node emptyDialogue "Start" = none := by
  refine ⟨?_, by decide, by decide⟩
  exact (get_string_id_determined_by_nodes exampleDialogue "Start").1.mpr
    ⟨exampleProgram, rfl, by decide, by decide⟩
